import Mathlib

/-!
Verification development for the GNSS Doppler residual factor
(`src/gnss/doppler_error.cpp` of gici-open).

The factor is embedded shallowly over exact rational arithmetic:
`double` becomes `ℚ`, Eigen's fixed-size vectors and matrices become
small record types, nullable Jacobian output buffers become `Option`
values, and the `LOG(FATAL)` paths become an `Option.none` result.

External collaborators whose code is not part of the excerpt
(`gnss_common` distance/elevation/azimuth helpers, the coordinate
conversion utility, Eigen's Cholesky factorization, and the pose
local-parameterization lift) are modelled from the specification as
abstract inputs, as documented on each definition.
-/

namespace Gici

/-- A 3-vector of rationals, standing in for `Eigen::Vector3d`. -/
structure Vec3 where
  x : ℚ
  y : ℚ
  z : ℚ
deriving DecidableEq, Repr

/-- The zero 3-vector. -/
def Vec3.zero : Vec3 := ⟨0, 0, 0⟩

/-- Componentwise addition. -/
def Vec3.add (a b : Vec3) : Vec3 := ⟨a.x + b.x, a.y + b.y, a.z + b.z⟩

/-- Componentwise subtraction. -/
def Vec3.sub (a b : Vec3) : Vec3 := ⟨a.x - b.x, a.y - b.y, a.z - b.z⟩

/-- Componentwise negation. -/
def Vec3.neg (a : Vec3) : Vec3 := ⟨-a.x, -a.y, -a.z⟩

/-- Scalar multiplication. -/
def Vec3.smul (s : ℚ) (a : Vec3) : Vec3 := ⟨s * a.x, s * a.y, s * a.z⟩

/-- Euclidean inner product. -/
def Vec3.dot (a b : Vec3) : ℚ := a.x * b.x + a.y * b.y + a.z * b.z

/-- Row-major listing of the components, used for Jacobian buffers. -/
def Vec3.toList (a : Vec3) : List ℚ := [a.x, a.y, a.z]

/-- A 3×3 matrix of rationals (row major), standing in for `Eigen::Matrix3d`. -/
structure Mat3 where
  m00 : ℚ
  m01 : ℚ
  m02 : ℚ
  m10 : ℚ
  m11 : ℚ
  m12 : ℚ
  m20 : ℚ
  m21 : ℚ
  m22 : ℚ
deriving DecidableEq, Repr

/-- The zero 3×3 matrix. -/
def Mat3.zero : Mat3 := ⟨0, 0, 0, 0, 0, 0, 0, 0, 0⟩

/-- The identity 3×3 matrix. -/
def Mat3.one : Mat3 := ⟨1, 0, 0, 0, 1, 0, 0, 0, 1⟩

/-- Matrix negation. -/
def Mat3.neg (M : Mat3) : Mat3 :=
  ⟨-M.m00, -M.m01, -M.m02, -M.m10, -M.m11, -M.m12, -M.m20, -M.m21, -M.m22⟩

/-- Matrix times column vector. -/
def Mat3.mulVec (M : Mat3) (v : Vec3) : Vec3 :=
  ⟨M.m00 * v.x + M.m01 * v.y + M.m02 * v.z,
   M.m10 * v.x + M.m11 * v.y + M.m12 * v.z,
   M.m20 * v.x + M.m21 * v.y + M.m22 * v.z⟩

/-- Row vector times matrix (a 1×3 Jacobian row pushed through a matrix). -/
def Vec3.vecMul (v : Vec3) (M : Mat3) : Vec3 :=
  ⟨v.x * M.m00 + v.y * M.m10 + v.z * M.m20,
   v.x * M.m01 + v.y * M.m11 + v.z * M.m21,
   v.x * M.m02 + v.y * M.m12 + v.z * M.m22⟩

/-- Modelled from the spec: `skewSymmetric` of `gici/utility/transform.h`
(not part of the excerpt), the usual cross-product matrix `[w]×`. -/
def skewSymmetric (w : Vec3) : Mat3 :=
  ⟨0, -w.z, w.y,
   w.z, 0, -w.x,
   -w.y, w.x, 0⟩

/-- A quaternion with scalar part `w`, standing in for `Eigen::Quaterniond`. -/
structure Quat where
  w : ℚ
  x : ℚ
  y : ℚ
  z : ℚ
deriving DecidableEq, Repr

/-- Modelled from the spec: Eigen's `Quaterniond::toRotationMatrix`, the
standard rotation matrix of a unit quaternion (external library code). -/
def Quat.toRotationMatrix (q : Quat) : Mat3 :=
  ⟨1 - 2 * (q.y * q.y + q.z * q.z), 2 * (q.x * q.y - q.z * q.w), 2 * (q.x * q.z + q.y * q.w),
   2 * (q.x * q.y + q.z * q.w), 1 - 2 * (q.x * q.x + q.z * q.z), 2 * (q.y * q.z - q.x * q.w),
   2 * (q.x * q.z - q.y * q.w), 2 * (q.y * q.z + q.x * q.w), 1 - 2 * (q.x * q.x + q.y * q.y)⟩

/-- Modelled from the spec: Eigen's `operator*(Quaterniond, Vector3d)`
rotates the vector by the quaternion, i.e. applies its rotation matrix. -/
def Quat.act (q : Quat) (v : Vec3) : Vec3 := q.toRotationMatrix.mulVec v

/-- Modelled from the spec: the earth rotation rate constant `OMGE`
(rad/s, WGS84), a named physical constant external to the excerpt. -/
def OMGE : ℚ := 72921151467 / 10 ^ 15

/-- Modelled from the spec: the speed of light constant `CLIGHT` (m/s). -/
def CLIGHT : ℚ := 299792458

/-- Modelled from the spec: gici's `square` arithmetic helper, `x ↦ x·x`. -/
def square (q : ℚ) : ℚ := q * q

/-- Satellite state for one observation epoch: ECEF position and velocity,
transmitted-frequency bias, and the constellation system character used to
look up the per-system error ratio (`satellite_` in the source). -/
structure Satellite where
  sat_position : Vec3
  sat_velocity : Vec3
  sat_frequency : ℚ
  system : Char
deriving DecidableEq, Repr

/-- One Doppler observation (`observation_` in the source). -/
structure Observation where
  doppler : ℚ
deriving DecidableEq, Repr

/-- GNSS noise parameters: the base Doppler error factor and the per-system
error-ratio map.  The source reads `system_error_ratio.at(system)`; the map
is embedded as the total lookup function `system_error_ratio_of`. -/
structure GnssErrorParameter where
  doppler_error_factor : ℚ
  system_error_ratio_of : Char → ℚ

/-- Modelled from the spec: the frame-conversion utility (`coordinate_`,
class `GeoCoordinate`, not part of the excerpt).  Only the operations the
Doppler factor consumes are modelled: the "has origin" query
`isZeroSetted`, the full ENU→ECEF conversion used for positions, the
rotation-only ENU→ECEF conversion used for velocities, and the ENU→ECEF
rotation matrix.  The conversions are kept abstract. -/
structure GeoCoordinate where
  zeroSetted : Bool
  convertENUtoECEF : Vec3 → Vec3
  rotateENUtoECEF : Vec3 → Vec3
  rotationMatrixENUtoECEF : Mat3

/-- The state of one `DopplerError` factor after construction.  Field names
follow the C++ members.  `angular_velocity_` is `none` when the
angular-velocity constructor was never used (the member's declaration is in
the header, outside the excerpt); `coordinate_` is `none` when no
frame-conversion utility was installed (a null pointer in the source). -/
structure DopplerError where
  satellite_ : Satellite
  observation_ : Observation
  is_estimate_body_ : Bool
  parameter_block_group_ : ℕ
  angular_velocity_ : Option Vec3
  coordinate_ : Option GeoCoordinate
  square_root_information_ : ℚ

/-- Covariance computed by `setInformation` (lines 66–71): the squared base
Doppler error factor times the squared per-system error ratio. -/
def covarianceOf (ep : GnssErrorParameter) (system : Char) : ℚ :=
  square ep.doppler_error_factor * square (ep.system_error_ratio_of system)

/-- Information computed by `setInformation` (line 73): the inverse of the
1×1 covariance. -/
def informationOf (ep : GnssErrorParameter) (system : Char) : ℚ :=
  (covarianceOf ep system)⁻¹

/-- Modelled from the spec: the Cholesky square root of a 1×1 information
matrix (`Eigen::LLT`, external library code) is the nonnegative square
root of its single entry. -/
def IsCholeskySqrt (s info : ℚ) : Prop := 0 ≤ s ∧ square s = info

/-- Constructor (lines 19–48): records the satellite and observation looked
up from the measurement, selects the parameter-block group from the block
dimension tuple `dims` exactly as the source checks `kNumParameterBlocks`
and `GetDim`, and stores the square-root information delivered by the
external Cholesky routine `chol` applied to the computed information.
`LOG(FATAL) << "DopplerError parameter blocks setup invalid!"` on any
other tuple is modelled as `none`.  The coordinate pointer is installed
separately (base-class setter, outside the excerpt) and starts unset. -/
def construct (dims : List ℕ) (sat : Satellite) (obs : Observation)
    (ep : GnssErrorParameter) (chol : ℚ → ℚ) : Option DopplerError :=
  if dims.length = 3 ∧ dims.getD 0 0 = 3 ∧ dims.getD 1 0 = 3 ∧ dims.getD 2 0 = 1 then
    some { satellite_ := sat, observation_ := obs,
           is_estimate_body_ := false, parameter_block_group_ := 1,
           angular_velocity_ := none, coordinate_ := none,
           square_root_information_ := chol (informationOf ep sat.system) }
  else if dims.length = 4 ∧ dims.getD 0 0 = 7 ∧ dims.getD 1 0 = 9 ∧
      dims.getD 2 0 = 3 ∧ dims.getD 3 0 = 1 then
    some { satellite_ := sat, observation_ := obs,
           is_estimate_body_ := true, parameter_block_group_ := 2,
           angular_velocity_ := none, coordinate_ := none,
           square_root_information_ := chol (informationOf ep sat.system) }
  else
    none

/-- Constructor with angular velocity (lines 51–60): delegates to the main
constructor and then assigns `angular_velocity_`. -/
def constructWithAngularVelocity (dims : List ℕ) (sat : Satellite)
    (obs : Observation) (ep : GnssErrorParameter) (chol : ℚ → ℚ)
    (angular_velocity : Vec3) : Option DopplerError :=
  (construct dims sat obs ep chol).map
    (fun d => { d with angular_velocity_ := some angular_velocity })

/-- The parameter blocks handed to an evaluation, already viewed through
the `Eigen::Map` reads of lines 100–120: group 1 supplies receiver ECEF
position, ECEF velocity and the clock-frequency scalar; group 2 supplies
the body pose (position and unit quaternion), body velocity, lever arm
and the clock-frequency scalar. -/
inductive Params where
  | group1 (t_WR_ECEF v_WR_ECEF : Vec3) (clock_frequency : ℚ)
  | group2 (t_WS_W : Vec3) (q_WS : Quat) (v_WS : Vec3) (t_SR_S : Vec3)
      (clock_frequency : ℚ)
deriving DecidableEq, Repr

/-- The raw 7-entry pose buffer `parameters[0]` of a group-2 call:
translation first, then the quaternion in Eigen's x, y, z, w storage
order.  The lift matrix is requested at this buffer. -/
def poseBuf (t : Vec3) (q : Quat) : Fin 7 → ℚ :=
  ![t.x, t.y, t.z, q.x, q.y, q.z, q.w]

/-- Body-state context produced by a group-2 decode, carried to the
Jacobian section (the locals `t_WS_W`, `q_WS`, `v_WS`, `t_SR_S`, the
angular velocity and the coordinate utility of lines 107–136). -/
structure BodyCtx where
  t_WS_W : Vec3
  q_WS : Quat
  v_WS : Vec3
  t_SR_S : Vec3
  angular_velocity : Vec3
  coord : GeoCoordinate

/-- State decoding (lines 100–136).  Group 1 reads the blocks directly.
Group 2 composes receiver position `t_WS + q·t_SR` and receiver velocity
`v_WS + [ω]× q t_SR`, then converts both to ECEF through the coordinate
utility; a missing utility or an unestablished origin is the fatal path
(`none`).  An angular velocity that was never assigned is used as the
member's default — modelled as zero, the header being outside the
excerpt; no fatal check guards it.  A mismatch between the stored variant
flag and the supplied block shape is out of contract in the C++ (raw
pointer reads) and is modelled as `none`. -/
def decodeState (d : DopplerError) (p : Params) :
    Option (Vec3 × Vec3 × ℚ × Option BodyCtx) :=
  if d.is_estimate_body_ = false then
    match p with
    | .group1 t_WR_ECEF v_WR_ECEF clock_frequency =>
        some (t_WR_ECEF, v_WR_ECEF, clock_frequency, none)
    | _ => none
  else
    match p with
    | .group2 t_WS_W q_WS v_WS t_SR_S clock_frequency =>
        let ω := d.angular_velocity_.getD Vec3.zero
        let t_WR_W := t_WS_W.add (q_WS.act t_SR_S)
        let v_WR := v_WS.add ((skewSymmetric ω).mulVec (q_WS.act t_SR_S))
        match d.coordinate_ with
        | none => none
        | some coord =>
            if coord.zeroSetted = false then none
            else some (coord.convertENUtoECEF t_WR_W,
                       coord.rotateENUtoECEF v_WR, clock_frequency,
                       some ⟨t_WS_W, q_WS, v_WS, t_SR_S, ω, coord⟩)
    | _ => none

/-- The line-of-sight vector `e` of line 147: satellite position minus
receiver position, over the range.  The range itself is delivered by the
external `gnss_common::satelliteToReceiverDistance` and enters as `rho`. -/
def lineOfSight (sat_position t_WR_ECEF : Vec3) (rho : ℚ) : Vec3 :=
  (sat_position.sub t_WR_ECEF).smul rho⁻¹

/-- Earth-rotation-corrected range rate (lines 150–154): relative velocity
projected on the line of sight plus the `OMGE / CLIGHT` correction. -/
def rangeRate (sat : Satellite) (t_WR_ECEF v_WR_ECEF : Vec3) (rho : ℚ) : ℚ :=
  (sat.sat_velocity.sub v_WR_ECEF).dot (lineOfSight sat.sat_position t_WR_ECEF rho) +
    OMGE / CLIGHT *
      (sat.sat_velocity.y * t_WR_ECEF.x + sat.sat_position.y * v_WR_ECEF.x -
       sat.sat_velocity.x * t_WR_ECEF.y - sat.sat_position.x * v_WR_ECEF.y)

/-- Predicted Doppler (lines 155–156): corrected range rate plus receiver
clock-frequency bias minus the satellite transmitted-frequency bias. -/
def dopplerEstimate (sat : Satellite) (t_WR_ECEF v_WR_ECEF : Vec3)
    (rho clock_frequency : ℚ) : ℚ :=
  rangeRate sat t_WR_ECEF v_WR_ECEF rho + clock_frequency - sat.sat_frequency

/-- The velocity-block Jacobian row before weighting (lines 173–175):
`-((t_WR_ECEF - sat_position) / rho)ᵀ`, transcribed verbatim. -/
def J_v_ECEF (t_WR_ECEF sat_position : Vec3) (rho : ℚ) : Vec3 :=
  ((t_WR_ECEF.sub sat_position).smul rho⁻¹).neg

/-- A raw Jacobian output buffer's contents (row-major, one row). -/
abbrev Buf := List ℚ

/-- Applies the scalar square-root-information weighting to every entry of
a Jacobian row buffer. -/
def scale (s : ℚ) (l : Buf) : Buf := l.map (fun q => s * q)

/-- Reads entry `i` of a nullable array of nullable buffers (`nullptr`
at either level reads as `none`). -/
def entry (a : Option (Fin 4 → Option Buf)) (i : Fin 4) : Option Buf :=
  match a with
  | none => none
  | some f => f i

/-- One guarded Jacobian write, mirroring the per-block pattern of lines
216–224: if the raw buffer for block `i` is null nothing happens; otherwise
the raw value is stored, and the minimal value is stored too when the
minimal array and its block-`i` buffer are both non-null. -/
def writeBlock (jac : Fin 4 → Option Buf) (jmin : Option (Fin 4 → Option Buf))
    (i : Fin 4) (rawVal minVal : Buf) :
    (Fin 4 → Option Buf) × Option (Fin 4 → Option Buf) :=
  match jac i with
  | none => (jac, jmin)
  | some _ =>
      (Function.update jac i (some rawVal),
       match jmin with
       | none => none
       | some m =>
           match m i with
           | none => some m
           | some _ => some (Function.update m i (some minVal)))

/-- Folds a sequence of guarded Jacobian writes. -/
def writeBlocks (jac : Fin 4 → Option Buf) (jmin : Option (Fin 4 → Option Buf)) :
    List (Fin 4 × Buf × Buf) → (Fin 4 → Option Buf) × Option (Fin 4 → Option Buf)
  | [] => (jac, jmin)
  | (i, rawVal, minVal) :: rest =>
      let p := writeBlock jac jmin i rawVal minVal
      writeBlocks p.1 p.2 rest

/-- The body-variant Jacobian rows of lines 181–207: the 1×6 pose row
`[J_t_W | J_q_WS]` (its position half zero), the body-velocity row
`J_v_W`, and the lever-arm row `J_t_SR_S`, built from `J_v_ECEF` by the
chain rule through the decoder.  When the factor does not estimate the
body state these locals stay uninitialized in the C++ and are never read;
they are modelled as zeros. -/
def bodyJacobianRows (d : DopplerError) (t_WR_ECEF : Vec3) (rho : ℚ)
    (body : Option BodyCtx) : (Fin 6 → ℚ) × Vec3 × Vec3 × (Fin 7 → ℚ) :=
  match d.is_estimate_body_, body with
  | true, some b =>
      let J_v := J_v_ECEF t_WR_ECEF d.satellite_.sat_position rho
      let R_ECEF_ENU := b.coord.rotationMatrixENUtoECEF
      let J_v_W := J_v.vecMul R_ECEF_ENU
      let J_q_WS := (J_v_W.vecMul (skewSymmetric b.angular_velocity)).vecMul
        ((skewSymmetric (b.q_WS.act b.t_SR_S)).neg)
      let J_t_SR_S := (J_v_W.vecMul (skewSymmetric b.angular_velocity)).vecMul
        b.q_WS.toRotationMatrix
      (![0, 0, 0, J_q_WS.x, J_q_WS.y, J_q_WS.z], J_v_W, J_t_SR_S,
       poseBuf b.t_WS_W b.q_WS)
  | _, _ => (fun _ => 0, Vec3.zero, Vec3.zero, fun _ => 0)

/-- The Jacobian section (lines 167–304).  Takes the nullable raw and
minimal output arrays and returns their state after the call.  Both group
sections run behind their own `parameter_block_group_` test, exactly as in
the source; the external lift matrix is requested fresh at the current raw
pose buffer for the group-2 pose block. -/
def computeJacobians (d : DopplerError)
    (lift : (Fin 7 → ℚ) → Matrix (Fin 6) (Fin 7) ℚ)
    (t_WR_ECEF : Vec3) (rho : ℚ) (body : Option BodyCtx)
    (jacobians jacobians_minimal : Option (Fin 4 → Option Buf)) :
    Option (Fin 4 → Option Buf) × Option (Fin 4 → Option Buf) :=
  match jacobians with
  | none => (none, jacobians_minimal)
  | some jac =>
      let s := d.square_root_information_
      let J_t_ECEF := Vec3.zero
      let J_v := J_v_ECEF t_WR_ECEF d.satellite_.sat_position rho
      let rows := bodyJacobianRows d t_WR_ECEF rho body
      let J_freq : ℚ := -1
      let g1 :=
        if d.parameter_block_group_ = 1 then
          writeBlocks jac jacobians_minimal
            [(0, scale s J_t_ECEF.toList, scale s J_t_ECEF.toList),
             (1, scale s J_v.toList, scale s J_v.toList),
             (2, [s * J_freq], [s * J_freq])]
        else (jac, jacobians_minimal)
      let g2 :=
        if d.parameter_block_group_ = 2 then
          let J0_minimal : Fin 6 → ℚ := fun i => s * rows.1 i
          let J0 : Fin 7 → ℚ := Matrix.vecMul J0_minimal (lift rows.2.2.2)
          writeBlocks g1.1 g1.2
            [(0, List.ofFn J0, List.ofFn J0_minimal),
             (1, scale s (rows.2.1.toList ++ [0, 0, 0, 0, 0, 0]),
                 scale s (rows.2.1.toList ++ [0, 0, 0, 0, 0, 0])),
             (2, scale s rows.2.2.1.toList, scale s rows.2.2.1.toList),
             (3, [s * J_freq], [s * J_freq])]
        else g1
      (some g2.1, g2.2)

/-- Everything an evaluation call produces or leaves behind: the `true`
return value, the decoded receiver state, the predicted Doppler, the
unweighted `error`, the weighted residual written to `residuals`, and the
state of both Jacobian buffer arrays after the call. -/
structure EvalResult where
  returnValue : Bool
  t_WR_ECEF : Vec3
  v_WR_ECEF : Vec3
  clock_frequency : ℚ
  doppler_estimate : ℚ
  error : ℚ
  residual : ℚ
  jacobians : Option (Fin 4 → Option Buf)
  jacobians_minimal : Option (Fin 4 → Option Buf)

/-- The part of the evaluation after a successful decode (lines 138–306):
range and line-of-sight geometry, earth-rotation-corrected range rate,
predicted Doppler, the unweighted error `observed - predicted`, the
weighted residual, and the Jacobian section.  The external distance
function is `dist` (`gnss_common::satelliteToReceiverDistance`); the
elevation and azimuth of lines 141–144 are external, feed nothing in this
function, and are omitted. -/
def evalDecoded (d : DopplerError) (dist : Vec3 → Vec3 → ℚ)
    (lift : (Fin 7 → ℚ) → Matrix (Fin 6) (Fin 7) ℚ)
    (t_WR_ECEF v_WR_ECEF : Vec3) (clock_frequency : ℚ) (body : Option BodyCtx)
    (jacobians jacobians_minimal : Option (Fin 4 → Option Buf)) : EvalResult :=
  let rho := dist d.satellite_.sat_position t_WR_ECEF
  let doppler_estimate := dopplerEstimate d.satellite_ t_WR_ECEF v_WR_ECEF rho
    clock_frequency
  let error := d.observation_.doppler - doppler_estimate
  let jj := computeJacobians d lift t_WR_ECEF rho body jacobians jacobians_minimal
  { returnValue := true,
    t_WR_ECEF := t_WR_ECEF,
    v_WR_ECEF := v_WR_ECEF,
    clock_frequency := clock_frequency,
    doppler_estimate := doppler_estimate,
    error := error,
    residual := d.square_root_information_ * error,
    jacobians := jj.1,
    jacobians_minimal := jj.2 }

/-- Embedding of `DopplerError::EvaluateWithMinimalJacobians` (lines 91–307):
decode the
parameter blocks for the active variant (fatal coordinate preconditions
give `none`), then run the physics, weighting and Jacobian sections. -/
def EvaluateWithMinimalJacobians (d : DopplerError) (dist : Vec3 → Vec3 → ℚ)
    (lift : (Fin 7 → ℚ) → Matrix (Fin 6) (Fin 7) ℚ) (p : Params)
    (jacobians jacobians_minimal : Option (Fin 4 → Option Buf)) :
    Option EvalResult :=
  (decodeState d p).map fun st =>
    evalDecoded d dist lift st.1 st.2.1 st.2.2.1 st.2.2.2 jacobians
      jacobians_minimal

/-- Embedding of `DopplerError::Evaluate` (lines 82–86): delegates with a null minimal
Jacobian array. -/
def Evaluate (d : DopplerError) (dist : Vec3 → Vec3 → ℚ)
    (lift : (Fin 7 → ℚ) → Matrix (Fin 6) (Fin 7) ℚ) (p : Params)
    (jacobians : Option (Fin 4 → Option Buf)) : Option EvalResult :=
  EvaluateWithMinimalJacobians d dist lift p jacobians none

/-- Spec-side predicted Doppler, following the claim's words: relative
velocity projected on the unit line of sight `(sat − rcv)/range`, plus the
`Ω_e/c` earth-rotation correction, plus the receiver clock-frequency bias,
minus the satellite transmitted-frequency bias.  The range is the value of
the external distance function at satellite and receiver positions. -/
def predictedDopplerSpec (sat : Satellite) (dist : Vec3 → Vec3 → ℚ)
    (t v : Vec3) (clock : ℚ) : ℚ :=
  let rho := dist sat.sat_position t
  let e := (sat.sat_position.sub t).smul rho⁻¹
  (sat.sat_velocity.sub v).dot e +
    OMGE / CLIGHT *
      (sat.sat_velocity.y * t.x + sat.sat_position.y * v.x -
       sat.sat_velocity.x * t.y - sat.sat_position.x * v.y) +
    clock - sat.sat_frequency

/-!  Concrete fixtures used by witness theorems. -/

/-- A concrete satellite fixture. -/
def exSat : Satellite := ⟨⟨20000, 0, 0⟩, ⟨0, 3, 0⟩, 0, 'G'⟩

/-- A concrete observation fixture. -/
def exObs : Observation := ⟨5⟩

/-- A concrete error-parameter fixture: base factor 2, every system ratio 3. -/
def exEp : GnssErrorParameter := ⟨2, fun _ => 3⟩

/-- A concrete stand-in for the external Cholesky routine, correct at the
1×1 information matrix that `exEp` produces. -/
def exChol : ℚ → ℚ := fun _ => 1 / 6

/-- A concrete coordinate fixture whose local frame coincides with ECEF. -/
def exCoord : GeoCoordinate := ⟨true, id, id, Mat3.one⟩

/-- A concrete stand-in for the external distance function. -/
def exDist : Vec3 → Vec3 → ℚ := fun _ _ => 2

/-- A concrete stand-in for the external lift-matrix utility. -/
def exLift : (Fin 7 → ℚ) → Matrix (Fin 6) (Fin 7) ℚ :=
  fun _ => Matrix.of fun _ _ => 1

/-- A group-1 factor fixture. -/
def exD1 : DopplerError := ⟨exSat, exObs, false, 1, none, none, 1⟩

/-- A group-2 factor fixture with angular velocity set to zero. -/
def exD2 : DopplerError := ⟨exSat, exObs, true, 2, some Vec3.zero, some exCoord, 1⟩

/-- A group-2 factor fixture whose angular velocity was never set. -/
def exD4 : DopplerError := ⟨exSat, exObs, true, 2, none, some exCoord, 1⟩

/-- A group-2 factor fixture with no coordinate utility installed. -/
def exD4b : DopplerError := ⟨exSat, exObs, true, 2, some Vec3.zero, none, 1⟩

/-- Concrete group-1 parameter blocks. -/
def exP1 : Params := .group1 ⟨1, 0, 0⟩ ⟨0, 0, 0⟩ 0

/-- Concrete group-2 parameter blocks. -/
def exP2 : Params := .group2 ⟨1, 2, 3⟩ ⟨1, 0, 0, 0⟩ ⟨4, 5, 6⟩ Vec3.zero 0

/-- A Jacobian array body with every block requested. -/
def exJacFull : Fin 4 → Option Buf := fun _ => some []

/-- A raw Jacobian array with every block requested. -/
def exJacAll : Option (Fin 4 → Option Buf) := some exJacFull

/-- A minimal Jacobian array with every block requested. -/
def exJminAll : Option (Fin 4 → Option Buf) := some exJacFull

/-- The result of a full group-1 evaluation on the fixtures. -/
def exRes1 : EvalResult :=
  (EvaluateWithMinimalJacobians exD1 exDist exLift exP1 exJacAll exJminAll).getD
    (evalDecoded exD1 exDist exLift Vec3.zero Vec3.zero 0 none none none)

/-!  Helper lemmas about the guarded Jacobian writes. -/

/-- A write to a null raw buffer is a no-op for both arrays. -/
theorem writeBlock_null {jac : Fin 4 → Option Buf}
    {jmin : Option (Fin 4 → Option Buf)} {i : Fin 4} {rawVal minVal : Buf}
    (h : jac i = none) : writeBlock jac jmin i rawVal minVal = (jac, jmin) := by
  simp [writeBlock, h]

/-- Unfolding equation for a chain of guarded writes. -/
theorem writeBlocks_cons (jac : Fin 4 → Option Buf)
    (jmin : Option (Fin 4 → Option Buf)) (j : Fin 4) (rawVal minVal : Buf)
    (tl : List (Fin 4 × Buf × Buf)) :
    writeBlocks jac jmin ((j, rawVal, minVal) :: tl) =
      writeBlocks (writeBlock jac jmin j rawVal minVal).1
        (writeBlock jac jmin j rawVal minVal).2 tl := rfl

/-- A single guarded write at index `j` leaves both slots at `i ≠ j`
untouched. -/
theorem writeBlock_other (jac : Fin 4 → Option Buf)
    (jmin : Option (Fin 4 → Option Buf)) (j : Fin 4) (rawVal minVal : Buf)
    (i : Fin 4) (hij : i ≠ j) :
    (writeBlock jac jmin j rawVal minVal).1 i = jac i ∧
    entry (writeBlock jac jmin j rawVal minVal).2 i = entry jmin i := by
  cases hj : jac j with
  | none => rw [writeBlock_null hj]; exact ⟨rfl, rfl⟩
  | some b =>
      constructor
      · simp [writeBlock, hj, Function.update_noteq hij]
      · cases jmin with
        | none => simp [writeBlock, hj, entry]
        | some m =>
            cases hm : m j with
            | none => simp [writeBlock, hj, hm, entry]
            | some b0 =>
                simp [writeBlock, hj, hm, entry, Function.update_noteq hij]

/-- A chain of guarded writes leaves a null raw slot null and leaves the
minimal slot at that index untouched. -/
theorem writeBlocks_preserve_null :
    ∀ (L : List (Fin 4 × Buf × Buf)) (jac : Fin 4 → Option Buf)
      (jmin : Option (Fin 4 → Option Buf)) (i : Fin 4), jac i = none →
      (writeBlocks jac jmin L).1 i = none ∧
      entry (writeBlocks jac jmin L).2 i = entry jmin i := by
  intro L
  induction L with
  | nil => intro jac jmin i h; exact ⟨h, rfl⟩
  | cons hd tl ih =>
      intro jac jmin i h
      obtain ⟨j, rawVal, minVal⟩ := hd
      rw [writeBlocks_cons]
      by_cases hij : i = j
      · subst hij
        rw [writeBlock_null h]
        exact ih jac jmin i h
      · obtain ⟨hr, hm⟩ := writeBlock_other jac jmin j rawVal minVal i hij
        obtain ⟨h1, h2⟩ := ih _ _ i (hr.trans h)
        exact ⟨h1, h2.trans hm⟩

/-- A chain of guarded writes whose indices all avoid `i` leaves both
slots at `i` untouched. -/
theorem writeBlocks_preserve_notMem :
    ∀ (L : List (Fin 4 × Buf × Buf)) (jac : Fin 4 → Option Buf)
      (jmin : Option (Fin 4 → Option Buf)) (i : Fin 4),
      (∀ e ∈ L, e.1 ≠ i) →
      (writeBlocks jac jmin L).1 i = jac i ∧
      entry (writeBlocks jac jmin L).2 i = entry jmin i := by
  intro L
  induction L with
  | nil => intro jac jmin i _; exact ⟨rfl, rfl⟩
  | cons hd tl ih =>
      intro jac jmin i hmem
      obtain ⟨j, rawVal, minVal⟩ := hd
      have hji : j ≠ i := hmem _ (List.mem_cons_self _ _)
      have htl : ∀ e ∈ tl, e.1 ≠ i := fun e he => hmem e (List.mem_cons_of_mem _ he)
      rw [writeBlocks_cons]
      obtain ⟨hr, hm⟩ := writeBlock_other jac jmin j rawVal minVal i (Ne.symm hji)
      obtain ⟨h1, h2⟩ := ih _ _ i htl
      exact ⟨h1.trans hr, h2.trans hm⟩

/-- The group-1 shape test of lines 30–32 holds exactly for the tuple
`(3, 3, 1)`. -/
theorem guard3_iff (dims : List ℕ) :
    (dims.length = 3 ∧ dims.getD 0 0 = 3 ∧ dims.getD 1 0 = 3 ∧
      dims.getD 2 0 = 1) ↔ dims = [3, 3, 1] := by
  constructor
  · rintro ⟨hl, h0, h1, h2⟩
    rcases dims with _ | ⟨a, _ | ⟨b, _ | ⟨c, _ | ⟨e, rest⟩⟩⟩⟩ <;>
      simp_all [List.getD]
  · rintro rfl; exact ⟨rfl, rfl, rfl, rfl⟩

/-- The group-2 shape test of lines 37–39 holds exactly for the tuple
`(7, 9, 3, 1)`. -/
theorem guard4_iff (dims : List ℕ) :
    (dims.length = 4 ∧ dims.getD 0 0 = 7 ∧ dims.getD 1 0 = 9 ∧
      dims.getD 2 0 = 3 ∧ dims.getD 3 0 = 1) ↔ dims = [7, 9, 3, 1] := by
  constructor
  · rintro ⟨hl, h0, h1, h2, h3⟩
    rcases dims with _ | ⟨a, _ | ⟨b, _ | ⟨c, _ | ⟨e, _ | ⟨f, rest⟩⟩⟩⟩⟩ <;>
      simp_all [List.getD]
  · rintro rfl; exact ⟨rfl, rfl, rfl, rfl, rfl⟩

/-- C2.  Construction with block-size tuple `(3, 3, 1)` selects the direct
variant (group 1), tuple `(7, 9, 3, 1)` selects the body-referenced variant
(group 2), and construction on any other tuple is the fatal configuration
path. -/
theorem c2_block_selection (dims : List ℕ) (sat : Satellite)
    (obs : Observation) (ep : GnssErrorParameter) (chol : ℚ → ℚ) :
    (dims = [3, 3, 1] → ∃ d, construct dims sat obs ep chol = some d ∧
      d.is_estimate_body_ = false ∧ d.parameter_block_group_ = 1) ∧
    (dims = [7, 9, 3, 1] → ∃ d, construct dims sat obs ep chol = some d ∧
      d.is_estimate_body_ = true ∧ d.parameter_block_group_ = 2) ∧
    (dims ≠ [3, 3, 1] → dims ≠ [7, 9, 3, 1] →
      construct dims sat obs ep chol = none) := by
  refine ⟨?_, ?_, ?_⟩
  · rintro rfl
    rw [construct, if_pos ((guard3_iff _).2 rfl)]
    exact ⟨_, rfl, rfl, rfl⟩
  · rintro rfl
    rw [construct, if_neg (fun hc => by cases (guard3_iff _).1 hc),
      if_pos ((guard4_iff _).2 rfl)]
    exact ⟨_, rfl, rfl, rfl⟩
  · intro h1 h2
    rw [construct, if_neg (fun hc => h1 ((guard3_iff _).1 hc)),
      if_neg (fun hc => h2 ((guard4_iff _).1 hc))]

/-- C2 witness: the tuple `(2, 2)` is rejected fatally, by the theorem
applied at a concrete input. -/
theorem c2_block_selection_witness :
    ([2, 2] : List ℕ) ≠ [3, 3, 1] ∧ ([2, 2] : List ℕ) ≠ [7, 9, 3, 1] ∧
    construct [2, 2] exSat exObs exEp exChol = none :=
  ⟨by decide, by decide,
    (c2_block_selection [2, 2] exSat exObs exEp exChol).2.2
      (by decide) (by decide)⟩

/-- C3 counterexample: at receiver `(0,0,0)`, satellite `(2,0,0)` and
range 2, the velocity-block Jacobian row of lines 173–175 is `+eᵀ`, not
the `−eᵀ` the claim states. -/
theorem c3_counterexample :
    J_v_ECEF ⟨0, 0, 0⟩ ⟨2, 0, 0⟩ 2 ≠
      (lineOfSight ⟨2, 0, 0⟩ ⟨0, 0, 0⟩ 2).neg := by
  simp only [J_v_ECEF, lineOfSight, Vec3.sub, Vec3.smul, Vec3.neg, ne_eq,
    Vec3.mk.injEq, not_and]
  intro h
  norm_num at h

/-- C3 as amended: for every receiver position, satellite position and
range, the velocity-block Jacobian row before weighting equals plus the
transpose of the unit line-of-sight vector `e = (sat − rcv)/range`
(equivalently, minus the transpose of `(rcv − sat)/range`). -/
theorem c3_velocity_jacobian_amended (t_WR_ECEF sat_position : Vec3)
    (rho : ℚ) :
    J_v_ECEF t_WR_ECEF sat_position rho =
      lineOfSight sat_position t_WR_ECEF rho := by
  simp only [J_v_ECEF, lineOfSight, Vec3.sub, Vec3.smul, Vec3.neg,
    Vec3.mk.injEq]
  refine ⟨by ring, by ring, by ring⟩

/-- C4 counterexample: a body-referenced factor whose angular velocity was
never set, evaluated with a valid coordinate utility, proceeds instead of
failing fatally. -/
theorem c4_counterexample :
    exD4.angular_velocity_ = none ∧
    (EvaluateWithMinimalJacobians exD4 exDist exLift exP2 none none).isSome =
      true :=
  ⟨rfl, rfl⟩

/-- C4 as amended: a body-referenced (Variant B) evaluation fails fatally
exactly when the frame-conversion utility is missing or has no established
origin; a never-set angular velocity is not checked. -/
theorem c4_fatal_conditions_amended (d : DopplerError)
    (dist : Vec3 → Vec3 → ℚ) (lift : (Fin 7 → ℚ) → Matrix (Fin 6) (Fin 7) ℚ)
    (t_WS_W : Vec3) (q_WS : Quat) (v_WS t_SR_S : Vec3) (clock_frequency : ℚ)
    (jacobians jacobians_minimal : Option (Fin 4 → Option Buf))
    (hbody : d.is_estimate_body_ = true) :
    EvaluateWithMinimalJacobians d dist lift
        (.group2 t_WS_W q_WS v_WS t_SR_S clock_frequency)
        jacobians jacobians_minimal = none ↔
      d.coordinate_ = none ∨
        ∃ c, d.coordinate_ = some c ∧ c.zeroSetted = false := by
  rw [EvaluateWithMinimalJacobians, Option.map_eq_none']
  rw [decodeState, hbody]
  cases hco : d.coordinate_ with
  | none => simp
  | some c =>
      cases hz : c.zeroSetted with
      | false => simp [hz]
      | true => simp [hz]

/-- C4 witness: a body-referenced factor with no coordinate utility fails
fatally, by the amended theorem applied at a concrete input. -/
theorem c4_fatal_conditions_witness :
    exD4b.is_estimate_body_ = true ∧
    EvaluateWithMinimalJacobians exD4b exDist exLift exP2 none none = none :=
  ⟨rfl,
    (c4_fatal_conditions_amended exD4b exDist exLift ⟨1, 2, 3⟩ ⟨1, 0, 0, 0⟩
      ⟨4, 5, 6⟩ Vec3.zero 0 none none rfl).2 (Or.inl rfl)⟩

/-- C10.  `Evaluate` is exactly `EvaluateWithMinimalJacobians` with a null
minimal-Jacobian array, and every evaluation that is not a fatal path
returns `true`. -/
theorem c10_return_contract (d : DopplerError) (dist : Vec3 → Vec3 → ℚ)
    (lift : (Fin 7 → ℚ) → Matrix (Fin 6) (Fin 7) ℚ) (p : Params)
    (jac jmin : Option (Fin 4 → Option Buf)) :
    Evaluate d dist lift p jac =
      EvaluateWithMinimalJacobians d dist lift p jac none ∧
    ∀ res, EvaluateWithMinimalJacobians d dist lift p jac jmin = some res →
      res.returnValue = true := by
  refine ⟨rfl, fun res h => ?_⟩
  rw [EvaluateWithMinimalJacobians] at h
  cases hdec : decodeState d p with
  | none => rw [hdec] at h; cases h
  | some st =>
      rw [hdec, Option.map_some'] at h
      injection h with h
      subst h
      rfl

/-- C10 witness: at the concrete group-1 fixture the evaluation returns
`true`, by the theorem applied there. -/
theorem c10_return_contract_witness : exRes1.returnValue = true :=
  (c10_return_contract exD1 exDist exLift exP1 exJacAll exJminAll).2
    exRes1 rfl

/-- C1.  On every successful evaluation, the unweighted residual equals the
observed Doppler minus the predicted Doppler of the claim's formula, taken
at the decoded receiver ECEF position, velocity and clock-frequency bias. -/
theorem c1_unweighted_residual (d : DopplerError) (dist : Vec3 → Vec3 → ℚ)
    (lift : (Fin 7 → ℚ) → Matrix (Fin 6) (Fin 7) ℚ) (p : Params)
    (jac jmin : Option (Fin 4 → Option Buf)) (res : EvalResult)
    (h : EvaluateWithMinimalJacobians d dist lift p jac jmin = some res) :
    res.error = d.observation_.doppler -
      predictedDopplerSpec d.satellite_ dist res.t_WR_ECEF res.v_WR_ECEF
        res.clock_frequency := by
  rw [EvaluateWithMinimalJacobians] at h
  cases hdec : decodeState d p with
  | none => rw [hdec] at h; cases h
  | some st =>
      rw [hdec, Option.map_some'] at h
      injection h with h
      subst h
      rfl

/-- C1 witness: the theorem applied at the concrete group-1 fixture. -/
theorem c1_unweighted_residual_witness :
    exRes1.error = exD1.observation_.doppler -
      predictedDopplerSpec exD1.satellite_ exDist exRes1.t_WR_ECEF
        exRes1.v_WR_ECEF exRes1.clock_frequency :=
  c1_unweighted_residual exD1 exDist exLift exP1 exJacAll exJminAll exRes1 rfl

/-- The Jacobian section never writes a block whose raw buffer is null: the
raw slot stays null and the minimal slot keeps its previous contents. -/
theorem computeJacobians_entry_null (d : DopplerError)
    (lift : (Fin 7 → ℚ) → Matrix (Fin 6) (Fin 7) ℚ) (t : Vec3) (rho : ℚ)
    (body : Option BodyCtx) (jmin : Option (Fin 4 → Option Buf))
    (f : Fin 4 → Option Buf) (i : Fin 4) (hfi : f i = none) :
    entry (computeJacobians d lift t rho body (some f) jmin).1 i = none ∧
    entry (computeJacobians d lift t rho body (some f) jmin).2 i =
      entry jmin i := by
  simp only [computeJacobians, entry]
  by_cases hg1 : d.parameter_block_group_ = 1
  · rw [if_pos hg1]
    by_cases hg2 : d.parameter_block_group_ = 2
    · exact absurd (hg1.symm.trans hg2) (by decide)
    · rw [if_neg hg2]
      obtain ⟨h1, h2⟩ := writeBlocks_preserve_null _ f jmin i hfi
      exact ⟨h1, h2⟩
  · rw [if_neg hg1]
    by_cases hg2 : d.parameter_block_group_ = 2
    · rw [if_pos hg2]
      obtain ⟨h1, h2⟩ := writeBlocks_preserve_null _ f jmin i hfi
      exact ⟨h1, h2⟩
    · rw [if_neg hg2]
      exact ⟨hfi, rfl⟩

/-- C9.  A minimal-Jacobian buffer is written only when the corresponding
raw buffer is requested: with a null raw array nothing is written at all,
and with a null raw slot for block `i` both the raw and the minimal slot
of block `i` are left exactly as the caller supplied them. -/
theorem c9_jacobian_write_guard (d : DopplerError) (dist : Vec3 → Vec3 → ℚ)
    (lift : (Fin 7 → ℚ) → Matrix (Fin 6) (Fin 7) ℚ) (p : Params)
    (jac jmin : Option (Fin 4 → Option Buf)) (res : EvalResult) (i : Fin 4)
    (h : EvaluateWithMinimalJacobians d dist lift p jac jmin = some res) :
    (jac = none → res.jacobians = none ∧ res.jacobians_minimal = jmin) ∧
    (∀ f, jac = some f → f i = none →
      entry res.jacobians i = none ∧
      entry res.jacobians_minimal i = entry jmin i) := by
  rw [EvaluateWithMinimalJacobians] at h
  cases hdec : decodeState d p with
  | none => rw [hdec] at h; cases h
  | some st =>
      rw [hdec, Option.map_some'] at h
      injection h with h
      subst h
      constructor
      · rintro rfl; exact ⟨rfl, rfl⟩
      · rintro f rfl hfi
        exact computeJacobians_entry_null d lift st.1
          (dist d.satellite_.sat_position st.1) st.2.2.2 jmin f i hfi

/-- A raw Jacobian array requesting only block 0. -/
def exJacOnly0 : Fin 4 → Option Buf := fun i => if i = 0 then some [] else none

/-- C9 witness: with only block 0 requested, slot 1 stays null and the
supplied minimal slot 1 is untouched, by the theorem applied at a concrete
input. -/
theorem c9_jacobian_write_guard_witness :
    exJacOnly0 1 = none ∧
    entry ((EvaluateWithMinimalJacobians exD1 exDist exLift exP1
      (some exJacOnly0) exJminAll).getD exRes1).jacobians 1 = none ∧
    entry ((EvaluateWithMinimalJacobians exD1 exDist exLift exP1
      (some exJacOnly0) exJminAll).getD exRes1).jacobians_minimal 1 =
      entry exJminAll 1 := by
  refine ⟨by decide, ?_, ?_⟩
  · exact ((c9_jacobian_write_guard exD1 exDist exLift exP1 (some exJacOnly0)
      exJminAll _ 1 rfl).2 exJacOnly0 rfl (by decide)).1
  · exact ((c9_jacobian_write_guard exD1 exDist exLift exP1 (some exJacOnly0)
      exJminAll _ 1 rfl).2 exJacOnly0 rfl (by decide)).2

/-- A guarded write to a non-null raw buffer stores the raw value, and
stores the minimal value when the minimal buffer is non-null too. -/
theorem writeBlock_written (jac : Fin 4 → Option Buf)
    (jmin : Option (Fin 4 → Option Buf)) (i : Fin 4) (rawVal minVal : Buf)
    (b : Buf) (h : jac i = some b) :
    (writeBlock jac jmin i rawVal minVal).1 i = some rawVal ∧
    (∀ m b0, jmin = some m → m i = some b0 →
      entry (writeBlock jac jmin i rawVal minVal).2 i = some minVal) := by
  constructor
  · simp [writeBlock, h]
  · rintro m b0 rfl hm
    simp [writeBlock, h, hm, entry]

/-- Reading a slot of a non-null array is application. -/
theorem entry_some (f : Fin 4 → Option Buf) (i : Fin 4) :
    entry (some f) i = f i := rfl

/-- A chain of guarded writes whose head hits index `i` on a non-null raw
slot, and whose tail avoids `i`, leaves the head's values at `i`. -/
theorem writeBlocks_head_written (jac : Fin 4 → Option Buf)
    (jmin : Option (Fin 4 → Option Buf)) (i : Fin 4) (rawVal minVal : Buf)
    (tl : List (Fin 4 × Buf × Buf)) (b : Buf) (hf : jac i = some b)
    (hnot : ∀ e ∈ tl, e.1 ≠ i) :
    (writeBlocks jac jmin ((i, rawVal, minVal) :: tl)).1 i = some rawVal ∧
    (∀ b0, entry jmin i = some b0 →
      entry (writeBlocks jac jmin ((i, rawVal, minVal) :: tl)).2 i =
        some minVal) := by
  rw [writeBlocks_cons]
  obtain ⟨h1, h2⟩ := writeBlocks_preserve_notMem tl
    (writeBlock jac jmin i rawVal minVal).1
    (writeBlock jac jmin i rawVal minVal).2 i hnot
  constructor
  · rw [h1]
    exact (writeBlock_written jac jmin i rawVal minVal b hf).1
  · intro b0 hb0
    rw [h2]
    cases jmin with
    | none => cases hb0
    | some m =>
        exact (writeBlock_written jac (some m) i rawVal minVal b hf).2 m b0
          rfl hb0

/-- A chain of guarded writes that hits index `i` once, in the middle, on a
non-null raw slot, leaves that write's values at `i`. -/
theorem writeBlocks_mid_written :
    ∀ (L1 : List (Fin 4 × Buf × Buf)) (jac : Fin 4 → Option Buf)
      (jmin : Option (Fin 4 → Option Buf)) (i : Fin 4) (rawVal minVal : Buf)
      (L2 : List (Fin 4 × Buf × Buf)) (b : Buf), jac i = some b →
      (∀ e ∈ L1, e.1 ≠ i) → (∀ e ∈ L2, e.1 ≠ i) →
      (writeBlocks jac jmin (L1 ++ (i, rawVal, minVal) :: L2)).1 i =
        some rawVal ∧
      (∀ b0, entry jmin i = some b0 →
        entry (writeBlocks jac jmin (L1 ++ (i, rawVal, minVal) :: L2)).2 i =
          some minVal) := by
  intro L1
  induction L1 with
  | nil =>
      intro jac jmin i rawVal minVal L2 b hf _ h2
      exact writeBlocks_head_written jac jmin i rawVal minVal L2 b hf h2
  | cons hd tl ih =>
      intro jac jmin i rawVal minVal L2 b hf h1 h2
      obtain ⟨j, rw0, mw0⟩ := hd
      have hji : j ≠ i := h1 _ (List.mem_cons_self _ _)
      have htl : ∀ e ∈ tl, e.1 ≠ i := fun e he => h1 e (List.mem_cons_of_mem _ he)
      rw [List.cons_append, writeBlocks_cons]
      obtain ⟨hr, hm⟩ := writeBlock_other jac jmin j rw0 mw0 i (Ne.symm hji)
      obtain ⟨g1, g2⟩ := ih (writeBlock jac jmin j rw0 mw0).1
        (writeBlock jac jmin j rw0 mw0).2 i rawVal minVal L2 b
        (hr.trans hf) htl h2
      exact ⟨g1, fun b0 hb0 => g2 b0 (hm.trans hb0)⟩

/-- The group-1 Jacobian section writes block 0 with the weighted zero
position row, raw and (when requested) minimal alike. -/
theorem computeJacobians_g1_entry0 (d : DopplerError)
    (lift : (Fin 7 → ℚ) → Matrix (Fin 6) (Fin 7) ℚ) (t : Vec3) (rho : ℚ)
    (body : Option BodyCtx) (jmin : Option (Fin 4 → Option Buf))
    (f : Fin 4 → Option Buf) (b : Buf)
    (hg : d.parameter_block_group_ = 1) (hf0 : f 0 = some b) :
    entry (computeJacobians d lift t rho body (some f) jmin).1 0 =
      some [0, 0, 0] ∧
    (∀ b0, entry jmin 0 = some b0 →
      entry (computeJacobians d lift t rho body (some f) jmin).2 0 =
        some [0, 0, 0]) := by
  have hzero : scale d.square_root_information_ Vec3.zero.toList =
      [0, 0, 0] := by
    simp [scale, Vec3.toList, Vec3.zero]
  have hg2 : d.parameter_block_group_ ≠ 2 := by rw [hg]; decide
  simp only [computeJacobians, entry_some, if_pos hg, if_neg hg2]
  have hnot : ∀ e ∈ [((1 : Fin 4),
      scale d.square_root_information_
        (J_v_ECEF t d.satellite_.sat_position rho).toList,
      scale d.square_root_information_
        (J_v_ECEF t d.satellite_.sat_position rho).toList),
      ((2 : Fin 4), [d.square_root_information_ * -1],
        [d.square_root_information_ * -1])], e.1 ≠ (0 : Fin 4) := by
    intro e he
    simp only [List.mem_cons, List.not_mem_nil, or_false] at he
    rcases he with rfl | rfl <;> simp
  obtain ⟨h1, h2⟩ := writeBlocks_head_written f jmin 0
    (scale d.square_root_information_ Vec3.zero.toList)
    (scale d.square_root_information_ Vec3.zero.toList) _ b hf0 hnot
  constructor
  · rw [← hzero]; exact h1
  · intro b0 hb0
    rw [← hzero]
    exact h2 b0 hb0

/-- C6.  On every direct-variant (group 1) evaluation that requests the
position block, the written position Jacobian is identically zero, as is
its minimal copy when requested. -/
theorem c6_position_jacobian_zero (d : DopplerError) (dist : Vec3 → Vec3 → ℚ)
    (lift : (Fin 7 → ℚ) → Matrix (Fin 6) (Fin 7) ℚ) (t v : Vec3) (ck : ℚ)
    (jmin : Option (Fin 4 → Option Buf)) (f : Fin 4 → Option Buf)
    (res : EvalResult) (b : Buf)
    (hflag : d.is_estimate_body_ = false) (hg : d.parameter_block_group_ = 1)
    (hf0 : f 0 = some b)
    (h : EvaluateWithMinimalJacobians d dist lift (.group1 t v ck) (some f)
      jmin = some res) :
    entry res.jacobians 0 = some [0, 0, 0] ∧
    (∀ m b0, jmin = some m → m 0 = some b0 →
      entry res.jacobians_minimal 0 = some [0, 0, 0]) := by
  have hdec : decodeState d (.group1 t v ck) = some (t, v, ck, none) := by
    simp [decodeState, hflag]
  rw [EvaluateWithMinimalJacobians, hdec, Option.map_some'] at h
  injection h with h
  subst h
  obtain ⟨h1, h2⟩ := computeJacobians_g1_entry0 d lift t
    (dist d.satellite_.sat_position t) none jmin f b hg hf0
  refine ⟨h1, ?_⟩
  rintro m b0 rfl hm0
  exact h2 b0 hm0

/-- C6 witness: the theorem applied at the concrete group-1 fixture. -/
theorem c6_position_jacobian_zero_witness :
    entry ((EvaluateWithMinimalJacobians exD1 exDist exLift exP1
      (some exJacFull) exJminAll).getD exRes1).jacobians 0 =
      some [0, 0, 0] ∧
    entry ((EvaluateWithMinimalJacobians exD1 exDist exLift exP1
      (some exJacFull) exJminAll).getD exRes1).jacobians_minimal 0 =
      some [0, 0, 0] := by
  have h := c6_position_jacobian_zero exD1 exDist exLift ⟨1, 0, 0⟩ ⟨0, 0, 0⟩ 0
    exJminAll exJacFull _ [] rfl rfl rfl rfl
  exact ⟨h.1, h.2 exJacFull [] rfl rfl⟩

/-- The group-2 Jacobian section writes block 0 with the lifted weighted
pose row as raw value and the weighted pose row as minimal value. -/
theorem computeJacobians_g2_entry0 (d : DopplerError)
    (lift : (Fin 7 → ℚ) → Matrix (Fin 6) (Fin 7) ℚ) (t : Vec3) (rho : ℚ)
    (body : Option BodyCtx) (jmin : Option (Fin 4 → Option Buf))
    (f : Fin 4 → Option Buf) (b : Buf)
    (hg : d.parameter_block_group_ = 2) (hf0 : f 0 = some b) :
    entry (computeJacobians d lift t rho body (some f) jmin).1 0 =
      some (List.ofFn (Matrix.vecMul
        (fun i => d.square_root_information_ *
          (bodyJacobianRows d t rho body).1 i)
        (lift (bodyJacobianRows d t rho body).2.2.2))) ∧
    (∀ b0, entry jmin 0 = some b0 →
      entry (computeJacobians d lift t rho body (some f) jmin).2 0 =
        some (List.ofFn (fun i => d.square_root_information_ *
          (bodyJacobianRows d t rho body).1 i))) := by
  have hg1 : d.parameter_block_group_ ≠ 1 := by rw [hg]; decide
  simp only [computeJacobians, entry_some, if_neg hg1, if_pos hg]
  have hnot : ∀ e ∈ [((1 : Fin 4),
      scale d.square_root_information_
        (((bodyJacobianRows d t rho body).2.1).toList ++ [0, 0, 0, 0, 0, 0]),
      scale d.square_root_information_
        (((bodyJacobianRows d t rho body).2.1).toList ++ [0, 0, 0, 0, 0, 0])),
      ((2 : Fin 4),
        scale d.square_root_information_
          ((bodyJacobianRows d t rho body).2.2.1).toList,
        scale d.square_root_information_
          ((bodyJacobianRows d t rho body).2.2.1).toList),
      ((3 : Fin 4), [d.square_root_information_ * -1],
        [d.square_root_information_ * -1])], e.1 ≠ (0 : Fin 4) := by
    intro e he
    simp only [List.mem_cons, List.not_mem_nil, or_false] at he
    rcases he with rfl | rfl | rfl <;> simp
  obtain ⟨h1, h2⟩ := writeBlocks_head_written f jmin 0
    (List.ofFn (Matrix.vecMul
      (fun i => d.square_root_information_ * (bodyJacobianRows d t rho body).1 i)
      (lift (bodyJacobianRows d t rho body).2.2.2)))
    (List.ofFn (fun i => d.square_root_information_ *
      (bodyJacobianRows d t rho body).1 i)) _ b hf0 hnot
  exact ⟨h1, h2⟩

/-- C7.  On every body-referenced (group 2) evaluation that requests the
pose block raw and minimal buffers, the written raw 1×7 pose Jacobian is
the written weighted minimal 1×6 pose Jacobian right-multiplied by the
6×7 lift matrix requested from the external utility at the current raw
pose buffer. -/
theorem c7_pose_jacobian_lift (d : DopplerError) (dist : Vec3 → Vec3 → ℚ)
    (lift : (Fin 7 → ℚ) → Matrix (Fin 6) (Fin 7) ℚ) (c : GeoCoordinate)
    (t_WS_W : Vec3) (q_WS : Quat) (v_WS t_SR_S : Vec3) (ck : ℚ)
    (f m : Fin 4 → Option Buf) (b b0 : Buf) (res : EvalResult)
    (hflag : d.is_estimate_body_ = true) (hg : d.parameter_block_group_ = 2)
    (hco : d.coordinate_ = some c) (hz : c.zeroSetted = true)
    (hf0 : f 0 = some b) (hm0 : m 0 = some b0)
    (h : EvaluateWithMinimalJacobians d dist lift
      (.group2 t_WS_W q_WS v_WS t_SR_S ck) (some f) (some m) = some res) :
    ∃ Jm : Fin 6 → ℚ,
      entry res.jacobians_minimal 0 = some (List.ofFn Jm) ∧
      entry res.jacobians 0 =
        some (List.ofFn (Matrix.vecMul Jm (lift (poseBuf t_WS_W q_WS)))) := by
  have hdec : decodeState d (.group2 t_WS_W q_WS v_WS t_SR_S ck) = some
      (c.convertENUtoECEF (t_WS_W.add (q_WS.act t_SR_S)),
       c.rotateENUtoECEF (v_WS.add
         ((skewSymmetric (d.angular_velocity_.getD Vec3.zero)).mulVec
           (q_WS.act t_SR_S))), ck,
       some ⟨t_WS_W, q_WS, v_WS, t_SR_S,
         d.angular_velocity_.getD Vec3.zero, c⟩) := by
    simp [decodeState, hflag, hco, hz]
  rw [EvaluateWithMinimalJacobians, hdec, Option.map_some'] at h
  injection h with h
  subst h
  obtain ⟨h1, h2⟩ := computeJacobians_g2_entry0 d lift
    (c.convertENUtoECEF (t_WS_W.add (q_WS.act t_SR_S)))
    (dist d.satellite_.sat_position
      (c.convertENUtoECEF (t_WS_W.add (q_WS.act t_SR_S))))
    (some ⟨t_WS_W, q_WS, v_WS, t_SR_S, d.angular_velocity_.getD Vec3.zero, c⟩)
    (some m) f b hg hf0
  have hpb : (bodyJacobianRows d
      (c.convertENUtoECEF (t_WS_W.add (q_WS.act t_SR_S)))
      (dist d.satellite_.sat_position
        (c.convertENUtoECEF (t_WS_W.add (q_WS.act t_SR_S))))
      (some ⟨t_WS_W, q_WS, v_WS, t_SR_S,
        d.angular_velocity_.getD Vec3.zero, c⟩)).2.2.2 =
      poseBuf t_WS_W q_WS := by
    simp [bodyJacobianRows, hflag]
  rw [hpb] at h1
  exact ⟨_, h2 b0 hm0, h1⟩

/-- C7 witness: the theorem applied at the concrete group-2 fixture. -/
theorem c7_pose_jacobian_lift_witness :
    ∃ Jm : Fin 6 → ℚ,
      entry ((EvaluateWithMinimalJacobians exD2 exDist exLift exP2
        (some exJacFull) (some exJacFull)).getD exRes1).jacobians_minimal 0 =
        some (List.ofFn Jm) ∧
      entry ((EvaluateWithMinimalJacobians exD2 exDist exLift exP2
        (some exJacFull) (some exJacFull)).getD exRes1).jacobians 0 =
        some (List.ofFn
          (Matrix.vecMul Jm (exLift (poseBuf ⟨1, 2, 3⟩ ⟨1, 0, 0, 0⟩)))) :=
  c7_pose_jacobian_lift exD2 exDist exLift exCoord ⟨1, 2, 3⟩ ⟨1, 0, 0, 0⟩
    ⟨4, 5, 6⟩ Vec3.zero 0 exJacFull exJacFull [] [] _ rfl rfl rfl rfl rfl
    rfl rfl

/-- On every successful evaluation the written residual is the stored
square-root information times the unweighted error (line 165). -/
theorem eval_residual_weighting (d : DopplerError) (dist : Vec3 → Vec3 → ℚ)
    (lift : (Fin 7 → ℚ) → Matrix (Fin 6) (Fin 7) ℚ) (p : Params)
    (jac jmin : Option (Fin 4 → Option Buf)) (res : EvalResult)
    (h : EvaluateWithMinimalJacobians d dist lift p jac jmin = some res) :
    res.residual = d.square_root_information_ * res.error := by
  rw [EvaluateWithMinimalJacobians] at h
  cases hdec : decodeState d p with
  | none => rw [hdec] at h; cases h
  | some st =>
      rw [hdec, Option.map_some'] at h
      injection h with h
      subst h
      rfl

/-- C5.  The construction-time weighting: variance is the squared base
factor times the squared per-system ratio, information is its inverse, the
Cholesky square root of the information is `1/(factor·ratio)`, every
evaluation scales the raw residual by exactly that value, and enlarging
either factor strictly shrinks the weighted residual magnitude for a fixed
nonzero raw residual. -/
theorem c5_weighting (ep : GnssErrorParameter) (sys : Char) (s : ℚ)
    (hf : 0 < ep.doppler_error_factor)
    (hr : 0 < ep.system_error_ratio_of sys)
    (hs : IsCholeskySqrt s (informationOf ep sys)) :
    covarianceOf ep sys =
      ep.doppler_error_factor ^ 2 * ep.system_error_ratio_of sys ^ 2 ∧
    informationOf ep sys = (covarianceOf ep sys)⁻¹ ∧
    s = (ep.doppler_error_factor * ep.system_error_ratio_of sys)⁻¹ ∧
    (∀ (d : DopplerError) (dist : Vec3 → Vec3 → ℚ)
      (lift : (Fin 7 → ℚ) → Matrix (Fin 6) (Fin 7) ℚ) (p : Params)
      (jac jmin : Option (Fin 4 → Option Buf)) (res : EvalResult),
      d.square_root_information_ = s →
      EvaluateWithMinimalJacobians d dist lift p jac jmin = some res →
      res.residual = res.error *
        (ep.doppler_error_factor * ep.system_error_ratio_of sys)⁻¹) ∧
    (∀ raw f1 f2 r0 : ℚ, raw ≠ 0 → 0 < f1 → f1 < f2 → 0 < r0 →
      |raw * (f2 * r0)⁻¹| < |raw * (f1 * r0)⁻¹|) ∧
    (∀ raw f0 r1 r2 : ℚ, raw ≠ 0 → 0 < f0 → 0 < r1 → r1 < r2 →
      |raw * (f0 * r2)⁻¹| < |raw * (f0 * r1)⁻¹|) := by
  have hfr : 0 < ep.doppler_error_factor * ep.system_error_ratio_of sys :=
    mul_pos hf hr
  have hcov : covarianceOf ep sys =
      (ep.doppler_error_factor * ep.system_error_ratio_of sys) *
      (ep.doppler_error_factor * ep.system_error_ratio_of sys) := by
    simp only [covarianceOf, square]; ring
  have hsq : s * s =
      (ep.doppler_error_factor * ep.system_error_ratio_of sys)⁻¹ *
      (ep.doppler_error_factor * ep.system_error_ratio_of sys)⁻¹ := by
    have := hs.2
    rw [square, informationOf, hcov, mul_inv] at this
    exact this
  have hsval : s =
      (ep.doppler_error_factor * ep.system_error_ratio_of sys)⁻¹ :=
    (mul_self_inj hs.1 (le_of_lt (inv_pos.mpr hfr))).mp hsq
  refine ⟨by simp only [covarianceOf, square]; ring, rfl, hsval, ?_, ?_, ?_⟩
  · intro d dist lift p jac jmin res hds heval
    rw [eval_residual_weighting d dist lift p jac jmin res heval, hds, hsval,
      mul_comm]
  · intro raw f1 f2 r0 hraw h1 h12 hr0
    have habs : 0 < |raw| := abs_pos.mpr hraw
    rw [abs_mul, abs_mul, abs_of_pos (inv_pos.mpr (mul_pos (h1.trans h12) hr0)),
      abs_of_pos (inv_pos.mpr (mul_pos h1 hr0))]
    exact mul_lt_mul_of_pos_left
      (inv_strictAnti₀ (mul_pos h1 hr0) (mul_lt_mul_of_pos_right h12 hr0))
      habs
  · intro raw f0 r1 r2 hraw h0 h1 h12
    have habs : 0 < |raw| := abs_pos.mpr hraw
    rw [abs_mul, abs_mul, abs_of_pos (inv_pos.mpr (mul_pos h0 (h1.trans h12))),
      abs_of_pos (inv_pos.mpr (mul_pos h0 h1))]
    exact mul_lt_mul_of_pos_left
      (inv_strictAnti₀ (mul_pos h0 h1) (mul_lt_mul_of_pos_left h12 h0))
      habs

/-- C5 witness: the theorem applied at the concrete error parameters
(factor 2, ratio 3) and the exact Cholesky value 1/6. -/
theorem c5_weighting_witness :
    0 < exEp.doppler_error_factor ∧ 0 < exEp.system_error_ratio_of 'G' ∧
    covarianceOf exEp 'G' =
      exEp.doppler_error_factor ^ 2 * exEp.system_error_ratio_of 'G' ^ 2 ∧
    (1 / 6 : ℚ) =
      (exEp.doppler_error_factor * exEp.system_error_ratio_of 'G')⁻¹ := by
  have h := c5_weighting exEp 'G' (1 / 6) (by norm_num [exEp])
    (by norm_num [exEp])
    (by constructor <;> norm_num [square, informationOf, covarianceOf, exEp])
  exact ⟨by norm_num [exEp], by norm_num [exEp], h.1, h.2.2.1⟩

/-- Multiplying the zero vector by a matrix gives the zero vector. -/
theorem Mat3.mulVec_zeroVec (M : Mat3) : M.mulVec Vec3.zero = Vec3.zero := by
  simp [Mat3.mulVec, Vec3.zero]

/-- Rotating the zero vector gives the zero vector. -/
theorem Quat.act_zero (q : Quat) : q.act Vec3.zero = Vec3.zero :=
  Mat3.mulVec_zeroVec _

/-- Adding the zero vector is the identity. -/
theorem Vec3.add_zeroVec (a : Vec3) : a.add Vec3.zero = a := by
  simp [Vec3.add, Vec3.zero]

/-- The cross-product matrix of the zero vector is the zero matrix. -/
theorem skewSymmetric_zero : skewSymmetric Vec3.zero = Mat3.zero := by
  simp [skewSymmetric, Vec3.zero, Mat3.zero]

/-- A row vector times the zero matrix is the zero row. -/
theorem Vec3.vecMul_zeroMat (v : Vec3) : v.vecMul Mat3.zero = Vec3.zero := by
  simp [Vec3.vecMul, Mat3.zero, Vec3.zero]

/-- The zero row times any matrix is the zero row. -/
theorem Vec3.zero_vecMul (M : Mat3) : Vec3.zero.vecMul M = Vec3.zero := by
  simp [Vec3.vecMul, Vec3.zero]

/-- The group-2 Jacobian section writes block 2 with the weighted
lever-arm row, raw and (when requested) minimal alike. -/
theorem computeJacobians_g2_entry2 (d : DopplerError)
    (lift : (Fin 7 → ℚ) → Matrix (Fin 6) (Fin 7) ℚ) (t : Vec3) (rho : ℚ)
    (body : Option BodyCtx) (jmin : Option (Fin 4 → Option Buf))
    (f : Fin 4 → Option Buf) (b : Buf)
    (hg : d.parameter_block_group_ = 2) (hf2 : f 2 = some b) :
    entry (computeJacobians d lift t rho body (some f) jmin).1 2 =
      some (scale d.square_root_information_
        (bodyJacobianRows d t rho body).2.2.1.toList) ∧
    (∀ b0, entry jmin 2 = some b0 →
      entry (computeJacobians d lift t rho body (some f) jmin).2 2 =
        some (scale d.square_root_information_
          (bodyJacobianRows d t rho body).2.2.1.toList)) := by
  have hg1 : d.parameter_block_group_ ≠ 1 := by rw [hg]; decide
  simp only [computeJacobians, entry_some, if_neg hg1, if_pos hg]
  exact writeBlocks_mid_written [_, _] f jmin 2 _ _ [_] b hf2
    (by
      intro e he
      simp only [List.mem_cons, List.not_mem_nil, or_false] at he
      rcases he with rfl | rfl <;> simp)
    (by
      intro e he
      simp only [List.mem_cons, List.not_mem_nil, or_false] at he
      subst he; simp)

/-- C8.  A body-referenced (Variant B) evaluation with zero lever arm and
zero angular velocity succeeds, produces the same predicted Doppler,
unweighted error and weighted residual as the direct (Variant A)
evaluation at the same effective ECEF receiver position and velocity, and
its pose-rotation and lever-arm Jacobian blocks are identically zero. -/
theorem c8_variantB_reduces_to_variantA (c : GeoCoordinate)
    (hc : c.zeroSetted = true) (sat : Satellite) (obs : Observation) (s : ℚ)
    (dist : Vec3 → Vec3 → ℚ) (lift : (Fin 7 → ℚ) → Matrix (Fin 6) (Fin 7) ℚ)
    (t_WS_W : Vec3) (q_WS : Quat) (v_WS : Vec3) (ck : ℚ) :
    ∃ rB rA : EvalResult,
      EvaluateWithMinimalJacobians
        ⟨sat, obs, true, 2, some Vec3.zero, some c, s⟩ dist lift
        (.group2 t_WS_W q_WS v_WS Vec3.zero ck)
        (some exJacFull) (some exJacFull) = some rB ∧
      EvaluateWithMinimalJacobians
        ⟨sat, obs, false, 1, none, none, s⟩ dist lift
        (.group1 (c.convertENUtoECEF t_WS_W) (c.rotateENUtoECEF v_WS) ck)
        (some exJacFull) (some exJacFull) = some rA ∧
      rB.doppler_estimate = rA.doppler_estimate ∧
      rB.error = rA.error ∧
      rB.residual = rA.residual ∧
      entry rB.jacobians 0 = some [0, 0, 0, 0, 0, 0, 0] ∧
      entry rB.jacobians_minimal 0 = some [0, 0, 0, 0, 0, 0] ∧
      entry rB.jacobians 2 = some [0, 0, 0] ∧
      entry rB.jacobians_minimal 2 = some [0, 0, 0] := by
  have hdecB : decodeState ⟨sat, obs, true, 2, some Vec3.zero, some c, s⟩
      (.group2 t_WS_W q_WS v_WS Vec3.zero ck) =
      some (c.convertENUtoECEF t_WS_W, c.rotateENUtoECEF v_WS, ck,
        some ⟨t_WS_W, q_WS, v_WS, Vec3.zero, Vec3.zero, c⟩) := by
    simp [decodeState, hc, Quat.act_zero, Vec3.add_zeroVec,
      Mat3.mulVec_zeroVec]
  have hdecA : decodeState ⟨sat, obs, false, 1, none, none, s⟩
      (.group1 (c.convertENUtoECEF t_WS_W) (c.rotateENUtoECEF v_WS) ck) =
      some (c.convertENUtoECEF t_WS_W, c.rotateENUtoECEF v_WS, ck, none) := by
    simp [decodeState]
  have hB : EvaluateWithMinimalJacobians
      ⟨sat, obs, true, 2, some Vec3.zero, some c, s⟩ dist lift
      (.group2 t_WS_W q_WS v_WS Vec3.zero ck)
      (some exJacFull) (some exJacFull) =
      some (evalDecoded ⟨sat, obs, true, 2, some Vec3.zero, some c, s⟩ dist
        lift (c.convertENUtoECEF t_WS_W) (c.rotateENUtoECEF v_WS) ck
        (some ⟨t_WS_W, q_WS, v_WS, Vec3.zero, Vec3.zero, c⟩)
        (some exJacFull) (some exJacFull)) := by
    rw [EvaluateWithMinimalJacobians, hdecB]; rfl
  have hA : EvaluateWithMinimalJacobians
      ⟨sat, obs, false, 1, none, none, s⟩ dist lift
      (.group1 (c.convertENUtoECEF t_WS_W) (c.rotateENUtoECEF v_WS) ck)
      (some exJacFull) (some exJacFull) =
      some (evalDecoded ⟨sat, obs, false, 1, none, none, s⟩ dist lift
        (c.convertENUtoECEF t_WS_W) (c.rotateENUtoECEF v_WS) ck none
        (some exJacFull) (some exJacFull)) := by
    rw [EvaluateWithMinimalJacobians, hdecA]; rfl
  refine ⟨_, _, hB, hA, rfl, rfl, rfl, ?_, ?_, ?_, ?_⟩
  · obtain ⟨h1, _⟩ := computeJacobians_g2_entry0
      ⟨sat, obs, true, 2, some Vec3.zero, some c, s⟩ lift
      (c.convertENUtoECEF t_WS_W)
      (dist sat.sat_position (c.convertENUtoECEF t_WS_W))
      (some ⟨t_WS_W, q_WS, v_WS, Vec3.zero, Vec3.zero, c⟩)
      (some exJacFull) exJacFull [] rfl rfl
    have hrows1 : (bodyJacobianRows
        ⟨sat, obs, true, 2, some Vec3.zero, some c, s⟩
        (c.convertENUtoECEF t_WS_W)
        (dist sat.sat_position (c.convertENUtoECEF t_WS_W))
        (some ⟨t_WS_W, q_WS, v_WS, Vec3.zero, Vec3.zero, c⟩)).1 =
        (fun _ : Fin 6 => (0 : ℚ)) := by
      funext i
      fin_cases i <;>
        simp [bodyJacobianRows, Vec3.vecMul, skewSymmetric, Vec3.zero,
          Mat3.neg] <;> rfl
    rw [hrows1] at h1
    have hfun0 : (fun i : Fin 6 => s * (fun _ : Fin 6 => (0 : ℚ)) i) =
        (0 : Fin 6 → ℚ) := by
      funext i; exact mul_zero s
    rw [hfun0, Matrix.zero_vecMul] at h1
    have hofn7 : List.ofFn (0 : Fin 7 → ℚ) = [0, 0, 0, 0, 0, 0, 0] := rfl
    rw [hofn7] at h1
    exact h1
  · obtain ⟨_, h2⟩ := computeJacobians_g2_entry0
      ⟨sat, obs, true, 2, some Vec3.zero, some c, s⟩ lift
      (c.convertENUtoECEF t_WS_W)
      (dist sat.sat_position (c.convertENUtoECEF t_WS_W))
      (some ⟨t_WS_W, q_WS, v_WS, Vec3.zero, Vec3.zero, c⟩)
      (some exJacFull) exJacFull [] rfl rfl
    have hm := h2 [] rfl
    have hrows1 : (bodyJacobianRows
        ⟨sat, obs, true, 2, some Vec3.zero, some c, s⟩
        (c.convertENUtoECEF t_WS_W)
        (dist sat.sat_position (c.convertENUtoECEF t_WS_W))
        (some ⟨t_WS_W, q_WS, v_WS, Vec3.zero, Vec3.zero, c⟩)).1 =
        (fun _ : Fin 6 => (0 : ℚ)) := by
      funext i
      fin_cases i <;>
        simp [bodyJacobianRows, Vec3.vecMul, skewSymmetric, Vec3.zero,
          Mat3.neg] <;> rfl
    rw [hrows1] at hm
    have hofn6 : List.ofFn (fun i : Fin 6 => s * (fun _ : Fin 6 => (0 : ℚ)) i) =
        [0, 0, 0, 0, 0, 0] := by
      simp
    rw [hofn6] at hm
    exact hm
  · obtain ⟨g1, _⟩ := computeJacobians_g2_entry2
      ⟨sat, obs, true, 2, some Vec3.zero, some c, s⟩ lift
      (c.convertENUtoECEF t_WS_W)
      (dist sat.sat_position (c.convertENUtoECEF t_WS_W))
      (some ⟨t_WS_W, q_WS, v_WS, Vec3.zero, Vec3.zero, c⟩)
      (some exJacFull) exJacFull [] rfl rfl
    have hrows3 : (bodyJacobianRows
        ⟨sat, obs, true, 2, some Vec3.zero, some c, s⟩
        (c.convertENUtoECEF t_WS_W)
        (dist sat.sat_position (c.convertENUtoECEF t_WS_W))
        (some ⟨t_WS_W, q_WS, v_WS, Vec3.zero, Vec3.zero, c⟩)).2.2.1 =
        Vec3.zero := by
      simp [bodyJacobianRows, Vec3.vecMul, skewSymmetric, Vec3.zero,
        Mat3.neg]
    rw [hrows3] at g1
    have hsc : scale s Vec3.zero.toList = [0, 0, 0] := by
      simp [scale, Vec3.toList, Vec3.zero]
    rw [hsc] at g1
    exact g1
  · obtain ⟨_, g2⟩ := computeJacobians_g2_entry2
      ⟨sat, obs, true, 2, some Vec3.zero, some c, s⟩ lift
      (c.convertENUtoECEF t_WS_W)
      (dist sat.sat_position (c.convertENUtoECEF t_WS_W))
      (some ⟨t_WS_W, q_WS, v_WS, Vec3.zero, Vec3.zero, c⟩)
      (some exJacFull) exJacFull [] rfl rfl
    have gm := g2 [] rfl
    have hrows3 : (bodyJacobianRows
        ⟨sat, obs, true, 2, some Vec3.zero, some c, s⟩
        (c.convertENUtoECEF t_WS_W)
        (dist sat.sat_position (c.convertENUtoECEF t_WS_W))
        (some ⟨t_WS_W, q_WS, v_WS, Vec3.zero, Vec3.zero, c⟩)).2.2.1 =
        Vec3.zero := by
      simp [bodyJacobianRows, Vec3.vecMul, skewSymmetric, Vec3.zero,
        Mat3.neg]
    rw [hrows3] at gm
    have hsc : scale s Vec3.zero.toList = [0, 0, 0] := by
      simp [scale, Vec3.toList, Vec3.zero]
    rw [hsc] at gm
    exact gm

/-- C8 witness: the theorem applied at the concrete fixtures. -/
theorem c8_variantB_reduces_to_variantA_witness :
    ∃ rB rA : EvalResult,
      EvaluateWithMinimalJacobians
        ⟨exSat, exObs, true, 2, some Vec3.zero, some exCoord, 1⟩ exDist exLift
        (.group2 ⟨1, 2, 3⟩ ⟨1, 0, 0, 0⟩ ⟨4, 5, 6⟩ Vec3.zero 0)
        (some exJacFull) (some exJacFull) = some rB ∧
      EvaluateWithMinimalJacobians
        ⟨exSat, exObs, false, 1, none, none, 1⟩ exDist exLift
        (.group1 (exCoord.convertENUtoECEF ⟨1, 2, 3⟩)
          (exCoord.rotateENUtoECEF ⟨4, 5, 6⟩) 0)
        (some exJacFull) (some exJacFull) = some rA ∧
      rB.doppler_estimate = rA.doppler_estimate ∧
      rB.error = rA.error ∧
      rB.residual = rA.residual ∧
      entry rB.jacobians 0 = some [0, 0, 0, 0, 0, 0, 0] ∧
      entry rB.jacobians_minimal 0 = some [0, 0, 0, 0, 0, 0] ∧
      entry rB.jacobians 2 = some [0, 0, 0] ∧
      entry rB.jacobians_minimal 2 = some [0, 0, 0] :=
  c8_variantB_reduces_to_variantA exCoord rfl exSat exObs 1 exDist exLift
    ⟨1, 2, 3⟩ ⟨1, 0, 0, 0⟩ ⟨4, 5, 6⟩ 0

end Gici
